import Mathlib

/-!
Shallow embedding of the `circuit_breaker` Go package.

The source is a single-file circuit breaker: a `CircuitBreaker` struct with a
three-valued `State` (closed / open / half-open), a `Counts` record of five
`uint32` counters, a lazy wall-clock based Open -> HalfOpen transition, a
caller-supplied trip predicate (`readyToTrip`) and an optional transition
observer (`onStateChange`).

Modelling choices, all driven by the Go source:

* `uint32` counters are modelled as `Nat` with every increment reduced
  `% 2^32` (`u32Mod`), so wrap-around is explicit.
* `time.Time` / `time.Duration` are modelled as `Nat` (the zero value of
  `time.Time` becomes `0`, matching the source's use of `time.Time{}` as the
  cleared deadline; `time.Time.Before` is strict `<` on `Nat`).  Each
  `Execute` call is given one wall-clock instant `now`.
* The caller-supplied trip predicate is a `Counts → Bool` passed explicitly
  to the functions that read it (in the source it is a function-valued field;
  keeping it out of the structure keeps the state decidably equal).  The
  optional `onStateChange` callback is modelled by a `hasObserver : Bool`
  flag plus an explicit `ObserverCall` record describing the invocation: the
  arguments it receives and a snapshot of the guard's state and counters at
  the moment it runs, which captures the source-code order of the state
  commit, the callback and the counter reset inside `setState`.
* The wrapped action `req : func() (interface{}, error)` is replaced by the
  pair it would return, generic in a value type `α` and an action-error type
  `ε`; `Execute`'s outcome is an `ExecResult` distinguishing the two guard
  rejections from a completed action, and the embedding counts how many
  times the action body runs (`invocations`).
* The mutex only serializes calls; the embedding is the sequential semantics.
-/

/-- Modulus of Go's `uint32` arithmetic. -/
def u32Mod : Nat := 4294967296

/-- Go `State` (`StateClosed` / `StateOpen` / `StateHalfOpen`); `opened`
stands for `StateOpen` since `open` is a Lean keyword. -/
inductive State where
  | closed
  | opened
  | halfOpen
deriving DecidableEq, Repr

/-- Go `defaultConsecutiveFailures = 5`. -/
def defaultConsecutiveFailures : Nat := 5

/-- Go `defaultTimeout = 60 * time.Second`, in seconds. -/
def defaultTimeout : Nat := 60

/-- Go `Counts`: five `uint32` fields. -/
structure Counts where
  requests : Nat
  totalSuccesses : Nat
  totalFailures : Nat
  consecutiveSuccesses : Nat
  consecutiveFailures : Nat
deriving DecidableEq, Repr

/-- Go `(c *Counts) onRequest()`: `c.Requests++` (uint32 wrap). -/
def Counts.onRequest (c : Counts) : Counts :=
  { c with requests := (c.requests + 1) % u32Mod }

/-- Go `(c *Counts) onSuccess()`. -/
def Counts.onSuccess (c : Counts) : Counts :=
  { c with
    totalSuccesses := (c.totalSuccesses + 1) % u32Mod
    consecutiveSuccesses := (c.consecutiveSuccesses + 1) % u32Mod
    consecutiveFailures := 0 }

/-- Go `(c *Counts) onFailure()`. -/
def Counts.onFailure (c : Counts) : Counts :=
  { c with
    totalFailures := (c.totalFailures + 1) % u32Mod
    consecutiveFailures := (c.consecutiveFailures + 1) % u32Mod
    consecutiveSuccesses := 0 }

/-- Go `(c *Counts) reset()`: all five fields to zero. -/
def Counts.reset (_c : Counts) : Counts :=
  ⟨0, 0, 0, 0, 0⟩

/-- The data part of the Go `CircuitBreaker` struct.  The function-valued
fields `readyToTrip` and `onStateChange` are modelled outside the structure:
the trip predicate is passed explicitly where used, and the observer by the
`hasObserver` flag (whether `onStateChange != nil`). -/
structure CircuitBreaker where
  name : String
  requestThreshold : Nat
  timeout : Nat
  state : State
  counts : Counts
  expiredAt : Nat
  hasObserver : Bool
deriving DecidableEq, Repr

/-- Go `Config`: construction-time configuration.  `readyToTrip = none`
models a nil `ReadyToTrip`; `hasOnStateChange` whether `OnStateChange` is
non-nil. -/
structure Config where
  name : String
  requestThreshold : Nat
  timeout : Nat
  readyToTrip : Option (Counts → Bool)
  hasOnStateChange : Bool

/-- Go `defaultReadyToTrip`: trip when `ConsecutiveFailures > 5`. -/
def defaultReadyToTrip (counts : Counts) : Bool :=
  counts.consecutiveFailures > defaultConsecutiveFailures

/-- Go `NewCircuitBreaker(cfg)`: state `StateClosed`, zero counters, zero
deadline; a zero `Timeout` is replaced by `defaultTimeout`. -/
def newCircuitBreaker (cfg : Config) : CircuitBreaker :=
  { name := cfg.name
    requestThreshold := cfg.requestThreshold
    timeout := if cfg.timeout = 0 then defaultTimeout else cfg.timeout
    state := State.closed
    counts := ⟨0, 0, 0, 0, 0⟩
    expiredAt := 0
    hasObserver := cfg.hasOnStateChange }

/-- The effective trip predicate of a guard built from `cfg`: Go
`NewCircuitBreaker` substitutes `defaultReadyToTrip` for a nil one. -/
def cfgReadyToTrip (cfg : Config) : Counts → Bool :=
  cfg.readyToTrip.getD defaultReadyToTrip

/-- One invocation of the `onStateChange` callback: the arguments passed to
it (`name`, `fromState`, `toState`) together with the guard's committed
state and counters at the moment the callback runs (in the source the
callback can observe them through the captured `cb`, the mutex being held by
the calling goroutine). -/
structure ObserverCall where
  name : String
  fromState : State
  toState : State
  stateAtCall : State
  countsAtCall : Counts
deriving DecidableEq, Repr

/-- Go `(cb *CircuitBreaker) setState(state)`: if the state is unchanged do
nothing; otherwise commit the new state, invoke the observer (if configured)
with `(name, prev, state)`, then reset the counters.  The returned
`ObserverCall` snapshot records that the callback runs with the new state
already committed and the counters not yet reset. -/
def setState (cb : CircuitBreaker) (state : State) : CircuitBreaker × Option ObserverCall :=
  if cb.state = state then (cb, none)
  else
    let prev := cb.state
    let cb1 : CircuitBreaker := { cb with state := state }
    let call : Option ObserverCall :=
      if cb.hasObserver then
        some ⟨cb1.name, prev, state, cb1.state, cb1.counts⟩
      else none
    ({ cb1 with counts := cb1.counts.reset }, call)

/-- Go `(cb *CircuitBreaker) onSuccess(state)`. -/
def CircuitBreaker.onSuccess (cb : CircuitBreaker) (state : State) :
    CircuitBreaker × Option ObserverCall :=
  match state with
  | State.closed => ({ cb with counts := cb.counts.onSuccess }, none)
  | State.halfOpen =>
      let cb1 : CircuitBreaker := { cb with counts := cb.counts.onSuccess }
      if cb1.counts.consecutiveSuccesses ≥ cb1.requestThreshold then
        setState cb1 State.closed
      else (cb1, none)
  | State.opened => (cb, none)

/-- Go `(cb *CircuitBreaker) onFailure(state)`; `now` is the instant at
which `time.Now()` is read for `expiredAt = now + timeout`. -/
def CircuitBreaker.onFailure (readyToTrip : Counts → Bool) (cb : CircuitBreaker)
    (state : State) (now : Nat) : CircuitBreaker × Option ObserverCall :=
  match state with
  | State.closed =>
      let cb1 : CircuitBreaker := { cb with counts := cb.counts.onFailure }
      if readyToTrip cb1.counts then
        setState { cb1 with expiredAt := now + cb1.timeout } State.opened
      else (cb1, none)
  | State.halfOpen =>
      setState { cb with expiredAt := now + cb.timeout } State.opened
  | State.opened => (cb, none)

/-- Lines 134-137 of `Execute`: if the state is `StateOpen` and
`cb.expiredAt.Before(time.Now())` (strict `<`), clear the deadline and move
to `StateHalfOpen`. -/
def checkDeadline (cb : CircuitBreaker) (now : Nat) : CircuitBreaker × Option ObserverCall :=
  if cb.state = State.opened ∧ cb.expiredAt < now then
    setState { cb with expiredAt := 0 } State.halfOpen
  else (cb, none)

/-- Result of one `Execute` call: one of the two guard rejections
(`ErrOpenState`, `ErrTooManyRequests`, returned with a nil result), or the
action's own `(result, err)` pair passed through unchanged. -/
inductive ExecResult (α ε : Type) where
  | rejectedOpen : ExecResult α ε
  | rejectedTooMany : ExecResult α ε
  | completed (val : α) (err : Option ε) : ExecResult α ε
deriving DecidableEq, Repr

/-- Everything one `Execute` call produces: the guard afterwards, the
returned result, how many times the wrapped action's body ran, and the
observer invocations in order. -/
structure ExecOut (α ε : Type) where
  cb : CircuitBreaker
  result : ExecResult α ε
  invocations : Nat
  observerCalls : List ObserverCall
deriving DecidableEq, Repr

/-- Go `(cb *CircuitBreaker) Execute(req)`: deadline check, admission check
(`StateOpen` rejects with `ErrOpenState`; `StateHalfOpen` with
`Requests >= requestThreshold` rejects with `ErrTooManyRequests`), then
`counts.onRequest()`, one invocation of the action, and the outcome dispatch
on the current state.  `act` is the `(result, err)` pair the action returns;
`now` the call's wall-clock instant. -/
def execute {α ε : Type} (readyToTrip : Counts → Bool) (cb : CircuitBreaker)
    (now : Nat) (act : α × Option ε) : ExecOut α ε :=
  let p := checkDeadline cb now
  let cb1 := p.1
  let calls0 := p.2.toList
  if cb1.state = State.opened then
    ⟨cb1, ExecResult.rejectedOpen, 0, calls0⟩
  else if cb1.state = State.halfOpen ∧ cb1.counts.requests ≥ cb1.requestThreshold then
    ⟨cb1, ExecResult.rejectedTooMany, 0, calls0⟩
  else
    let cb2 : CircuitBreaker := { cb1 with counts := cb1.counts.onRequest }
    match act.2 with
    | some e =>
        let q := CircuitBreaker.onFailure readyToTrip cb2 cb2.state now
        ⟨q.1, ExecResult.completed act.1 (some e), 1, calls0 ++ q.2.toList⟩
    | none =>
        let q := CircuitBreaker.onSuccess cb2 cb2.state
        ⟨q.1, ExecResult.completed act.1 none, 1, calls0 ++ q.2.toList⟩

/-- Accumulated outcome of a finite sequence of `Execute` calls. -/
structure RunOut (α ε : Type) where
  cb : CircuitBreaker
  results : List (ExecResult α ε)
  invocations : Nat
deriving Repr

/-- Run a finite sequence of `Execute` calls; each input is the call's
wall-clock instant paired with the `(result, err)` the action would return. -/
def runExec {α ε : Type} (readyToTrip : Counts → Bool) (cb : CircuitBreaker) :
    List (Nat × α × Option ε) → RunOut α ε
  | [] => ⟨cb, [], 0⟩
  | (now, act) :: rest =>
      let out := execute readyToTrip cb now act
      let r := runExec readyToTrip out.cb rest
      ⟨r.cb, out.result :: r.results, out.invocations + r.invocations⟩

/-! ### Helper lemmas -/

theorem setState_requestThreshold (cb : CircuitBreaker) (s : State) :
    (setState cb s).1.requestThreshold = cb.requestThreshold := by
  unfold setState
  split <;> rfl

theorem checkDeadline_requestThreshold (cb : CircuitBreaker) (now : Nat) :
    (checkDeadline cb now).1.requestThreshold = cb.requestThreshold := by
  unfold checkDeadline
  split
  · exact setState_requestThreshold _ _
  · rfl

theorem onSuccess_requestThreshold (cb : CircuitBreaker) (s : State) :
    (CircuitBreaker.onSuccess cb s).1.requestThreshold = cb.requestThreshold := by
  unfold CircuitBreaker.onSuccess
  cases s
  · rfl
  · rfl
  · dsimp only
    split
    · exact setState_requestThreshold _ _
    · rfl

theorem onFailure_requestThreshold (readyToTrip : Counts → Bool) (cb : CircuitBreaker)
    (s : State) (now : Nat) :
    (CircuitBreaker.onFailure readyToTrip cb s now).1.requestThreshold = cb.requestThreshold := by
  unfold CircuitBreaker.onFailure
  cases s
  · dsimp only
    split
    · exact setState_requestThreshold _ _
    · rfl
  · rfl
  · exact setState_requestThreshold _ _

theorem execute_requestThreshold {α ε : Type} (readyToTrip : Counts → Bool)
    (cb : CircuitBreaker) (now : Nat) (act : α × Option ε) :
    (execute readyToTrip cb now act).cb.requestThreshold = cb.requestThreshold := by
  unfold execute
  dsimp only
  split
  · exact checkDeadline_requestThreshold _ _
  · split
    · exact checkDeadline_requestThreshold _ _
    · cases h : act.2 <;> dsimp only
      · exact (onSuccess_requestThreshold _ _).trans (checkDeadline_requestThreshold _ _)
      · exact (onFailure_requestThreshold _ _ _ _).trans (checkDeadline_requestThreshold _ _)

/-! ### C6: Open before the deadline rejects without touching anything -/

/-- Claim C6: for every `Execute` call made while the guard's state is Open
and the wall clock has not yet reached the cooldown deadline, `Execute`
returns the `ErrOpenState` rejection, the action is not invoked
(`invocations = 0`), and the guard (state, counters, deadline) is returned
unchanged. -/
theorem c6_open_rejects_unchanged {α ε : Type} (readyToTrip : Counts → Bool)
    (cb : CircuitBreaker) (now : Nat) (act : α × Option ε)
    (hst : cb.state = State.opened) (hnow : now < cb.expiredAt) :
    execute readyToTrip cb now act = ⟨cb, ExecResult.rejectedOpen, 0, []⟩ := by
  have h1 : ¬ (cb.state = State.opened ∧ cb.expiredAt < now) := by
    rintro ⟨-, h⟩
    omega
  unfold execute checkDeadline
  rw [if_neg h1]
  dsimp only [Option.toList]
  rw [if_pos hst]

/-- Witness for C6 at a concrete open guard and call before the deadline. -/
theorem c6_witness :
    execute (fun _ => true) ⟨"g", 1, 60, State.opened, ⟨2, 1, 1, 1, 0⟩, 100, false⟩ 50
        ((0 : Nat), (none : Option Nat)) =
      ⟨⟨"g", 1, 60, State.opened, ⟨2, 1, 1, 1, 0⟩, 100, false⟩, ExecResult.rejectedOpen, 0, []⟩ :=
  c6_open_rejects_unchanged (fun _ => true) _ 50 _ rfl (by decide)

/-! ### C2: deadline comparison is strict -/

/-- Concrete guard for the C2 counterexample: Open with deadline 100. -/
def cbC2 : CircuitBreaker :=
  ⟨"g", 1, 60, State.opened, ⟨0, 0, 0, 0, 0⟩, 100, false⟩

/-- Counterexample to claim C2: `Execute` invoked at wall-clock time exactly
equal to the cooldown deadline (100) does NOT transition to HalfOpen and
does NOT clear the deadline — the Go code uses `cb.expiredAt.Before(now)`,
which is strict, so the call is still rejected with `ErrOpenState` and the
guard is unchanged. -/
theorem c2_counterexample :
    (execute (fun _ => false) cbC2 100 ((0 : Nat), (none : Option Nat))).cb = cbC2 ∧
    (execute (fun _ => false) cbC2 100 ((0 : Nat), (none : Option Nat))).result =
      ExecResult.rejectedOpen ∧
    cbC2.state = State.opened ∧ cbC2.expiredAt = 100 := by
  refine ⟨?_, ?_, rfl, rfl⟩ <;> decide

/-- Claim C2 (amended): for a guard in state Open, the deadline check
transitions to HalfOpen (clearing the deadline to zero and resetting the
counters) exactly when the wall clock is STRICTLY past `expiredAt`; a call
at a time less than or equal to the deadline (in particular exactly equal)
leaves the guard untouched.  `checkDeadline` is the deadline-check phase
that `execute` runs before its admission check. -/
theorem c2_deadline_strict (cb : CircuitBreaker) (now : Nat)
    (hst : cb.state = State.opened) :
    (cb.expiredAt < now →
      (checkDeadline cb now).1 =
        { cb with state := State.halfOpen, expiredAt := 0, counts := ⟨0, 0, 0, 0, 0⟩ }) ∧
    (now ≤ cb.expiredAt → checkDeadline cb now = (cb, none)) := by
  constructor
  · intro h
    unfold checkDeadline
    rw [if_pos ⟨hst, h⟩]
    unfold setState
    rw [if_neg (by rw [hst]; intro hc; exact State.noConfusion hc)]
    rfl
  · intro h
    unfold checkDeadline
    rw [if_neg (by rintro ⟨-, hc⟩; omega)]

/-- Witness for C2 (amended): a concrete Open guard with deadline 100 — a
call at time 101 transitions, a call at time 100 does not. -/
theorem c2_witness :
    ((checkDeadline cbC2 101).1 =
      { cbC2 with state := State.halfOpen, expiredAt := 0, counts := ⟨0, 0, 0, 0, 0⟩ }) ∧
    checkDeadline cbC2 100 = (cbC2, none) :=
  ⟨(c2_deadline_strict cbC2 101 rfl).1 (by decide),
   (c2_deadline_strict cbC2 100 rfl).2 (by decide)⟩

/-! ### C4: failure while HalfOpen re-trips unconditionally -/

/-- Claim C4: for every admitted `Execute` call whose action fails while the
guard is in state HalfOpen (admission requires `requests < requestThreshold`),
the guard sets `expiredAt = now + timeout` and transitions to Open with all
counters reset to zero, regardless of the current counter values. -/
theorem c4_halfopen_failure_trips {α ε : Type} (readyToTrip : Counts → Bool)
    (cb : CircuitBreaker) (now : Nat) (v : α) (e : ε)
    (hst : cb.state = State.halfOpen)
    (hadm : cb.counts.requests < cb.requestThreshold) :
    (execute readyToTrip cb now (v, some e)).cb =
      { cb with state := State.opened, expiredAt := now + cb.timeout, counts := ⟨0, 0, 0, 0, 0⟩ } ∧
    (execute readyToTrip cb now (v, some e)).result = ExecResult.completed v (some e) := by
  have h1 : ¬ (cb.state = State.opened ∧ cb.expiredAt < now) := by
    rintro ⟨hc, -⟩
    rw [hst] at hc
    exact State.noConfusion hc
  have h2 : ¬ cb.state = State.opened := by
    rw [hst]
    intro hc
    exact State.noConfusion hc
  have h3 : ¬ (cb.state = State.halfOpen ∧ cb.counts.requests ≥ cb.requestThreshold) := by
    rintro ⟨-, hc⟩
    omega
  unfold execute checkDeadline
  rw [if_neg h1]
  dsimp only [Option.toList]
  rw [if_neg h2, if_neg h3]
  dsimp only
  unfold CircuitBreaker.onFailure
  rw [hst]
  dsimp only
  unfold setState
  rw [if_neg (fun hc => State.noConfusion hc)]
  dsimp only [Counts.reset, Counts.onRequest]
  constructor <;> rfl

/-- Witness for C4 at a concrete HalfOpen guard with one success recorded. -/
theorem c4_witness :
    (execute (fun _ => true) ⟨"g", 2, 60, State.halfOpen, ⟨1, 1, 0, 1, 0⟩, 0, false⟩ 10
        ((3 : Nat), some "boom")).cb =
      { (⟨"g", 2, 60, State.halfOpen, ⟨1, 1, 0, 1, 0⟩, 0, false⟩ : CircuitBreaker) with
        state := State.opened, expiredAt := 10 + 60, counts := ⟨0, 0, 0, 0, 0⟩ } ∧
    (execute (fun _ => true) ⟨"g", 2, 60, State.halfOpen, ⟨1, 1, 0, 1, 0⟩, 0, false⟩ 10
        ((3 : Nat), some "boom")).result = ExecResult.completed 3 (some "boom") :=
  c4_halfopen_failure_trips (fun _ => true) _ 10 3 "boom" rfl (by decide)

/-! ### C7: what a state transition does, and in which order -/

/-- Concrete guard for C7: HalfOpen, observer configured, nonzero counters. -/
def cbC7 : CircuitBreaker :=
  ⟨"cb", 2, 60, State.halfOpen, ⟨5, 2, 3, 0, 3⟩, 0, true⟩

/-- Counterexample to claim C7: on the transition HalfOpen -> Closed of a
guard with counters `{5,2,3,0,3}`, the observer runs while the counters are
still `{5,2,3,0,3}` — the reset happens AFTER the notification in
`setState`, not before as the claim states. -/
theorem c7_counterexample :
    (setState cbC7 State.closed).2 =
      some ⟨"cb", State.halfOpen, State.closed, State.closed, ⟨5, 2, 3, 0, 3⟩⟩ ∧
    (⟨5, 2, 3, 0, 3⟩ : Counts) ≠ (⟨0, 0, 0, 0, 0⟩ : Counts) := by
  constructor <;> decide

/-- Claim C7 (amended): every actual transition (from ≠ to) commits the new
state, then invokes the configured observer with (name, previous state, new
state) — the observer runs with the new state already committed but the
counters NOT yet reset — and then resets all five counter fields to zero;
setting the state to its current value invokes no observer and resets no
counters. -/
theorem c7_transition_observer (cb : CircuitBreaker) (s : State) :
    (cb.state ≠ s →
      setState cb s =
        ({ cb with state := s, counts := ⟨0, 0, 0, 0, 0⟩ },
         if cb.hasObserver then some ⟨cb.name, cb.state, s, s, cb.counts⟩ else none)) ∧
    (cb.state = s → setState cb s = (cb, none)) := by
  constructor
  · intro h
    unfold setState
    rw [if_neg h]
    rfl
  · intro h
    unfold setState
    rw [if_pos h]

/-- Witness for C7 (amended): a concrete actual transition and a concrete
self-transition. -/
theorem c7_witness :
    (setState cbC7 State.closed =
      ({ cbC7 with state := State.closed, counts := ⟨0, 0, 0, 0, 0⟩ },
       if cbC7.hasObserver then
         some ⟨cbC7.name, cbC7.state, State.closed, State.closed, cbC7.counts⟩
       else none)) ∧
    setState cbC7 State.halfOpen = (cbC7, none) :=
  ⟨(c7_transition_observer cbC7 State.closed).1 (by decide),
   (c7_transition_observer cbC7 State.halfOpen).2 rfl⟩

/-! ### C9: the action is invoked exactly once iff admitted, passthrough -/

/-- Claim C9: on every `Execute` call, either the call is admitted (the
deadline-checked state is neither Open nor HalfOpen-at-cap), the action body
runs exactly once and its `(result, err)` pair is returned unchanged, or the
call is rejected, the action body never runs and one of the two
guard-originated errors is returned — never both. -/
theorem c9_action_passthrough {α ε : Type} (readyToTrip : Counts → Bool)
    (cb : CircuitBreaker) (now : Nat) (v : α) (e : Option ε) :
    ((¬ (checkDeadline cb now).1.state = State.opened ∧
      ¬ ((checkDeadline cb now).1.state = State.halfOpen ∧
         (checkDeadline cb now).1.counts.requests ≥ (checkDeadline cb now).1.requestThreshold)) →
      (execute readyToTrip cb now (v, e)).invocations = 1 ∧
      (execute readyToTrip cb now (v, e)).result = ExecResult.completed v e) ∧
    (((checkDeadline cb now).1.state = State.opened ∨
      ((checkDeadline cb now).1.state = State.halfOpen ∧
       (checkDeadline cb now).1.counts.requests ≥ (checkDeadline cb now).1.requestThreshold)) →
      (execute readyToTrip cb now (v, e)).invocations = 0 ∧
      ((execute readyToTrip cb now (v, e)).result = ExecResult.rejectedOpen ∨
       (execute readyToTrip cb now (v, e)).result = ExecResult.rejectedTooMany)) := by
  constructor
  · rintro ⟨h1, h2⟩
    unfold execute
    dsimp only
    rw [if_neg h1, if_neg h2]
    cases e <;> exact ⟨rfl, rfl⟩
  · intro h
    unfold execute
    dsimp only
    rcases h with h | h
    · rw [if_pos h]
      exact ⟨rfl, Or.inl rfl⟩
    · by_cases h1 : (checkDeadline cb now).1.state = State.opened
      · rw [if_pos h1]
        exact ⟨rfl, Or.inl rfl⟩
      · rw [if_neg h1, if_pos h]
        exact ⟨rfl, Or.inr rfl⟩

/-- Concrete Closed guard for the C9 witness. -/
def cbC9a : CircuitBreaker := ⟨"g", 1, 60, State.closed, ⟨0, 0, 0, 0, 0⟩, 0, false⟩

/-- Concrete Open guard (deadline not reached) for the C9 witness. -/
def cbC9b : CircuitBreaker := ⟨"g", 1, 60, State.opened, ⟨0, 0, 0, 0, 0⟩, 100, false⟩

/-- Witness for C9: a concrete admitted call (action runs once, pair passed
through) and a concrete rejected call (action never runs). -/
theorem c9_witness :
    ((execute (fun _ => true) cbC9a 5 ((7 : Nat), (none : Option Nat))).invocations = 1 ∧
     (execute (fun _ => true) cbC9a 5 ((7 : Nat), (none : Option Nat))).result =
       ExecResult.completed 7 none) ∧
    ((execute (fun _ => true) cbC9b 50 ((7 : Nat), (none : Option Nat))).invocations = 0 ∧
     ((execute (fun _ => true) cbC9b 50 ((7 : Nat), (none : Option Nat))).result =
        ExecResult.rejectedOpen ∨
      (execute (fun _ => true) cbC9b 50 ((7 : Nat), (none : Option Nat))).result =
        ExecResult.rejectedTooMany)) :=
  ⟨(c9_action_passthrough (fun _ => true) cbC9a 5 7 none).1 ⟨by decide, by decide⟩,
   (c9_action_passthrough (fun _ => true) cbC9b 50 7 none).2 (Or.inl (by decide))⟩

/-! ### C3: the trip predicate — when it fires and when it is consulted -/

theorem onFailure_trip_indep (p q : Counts → Bool) (cb : CircuitBreaker) (s : State)
    (now : Nat) (h : s ≠ State.closed) :
    CircuitBreaker.onFailure p cb s now = CircuitBreaker.onFailure q cb s now := by
  cases s
  · exact absurd rfl h
  · rfl
  · rfl

theorem checkDeadline_ne_closed (cb : CircuitBreaker) (now : Nat)
    (h : cb.state ≠ State.closed) : (checkDeadline cb now).1.state ≠ State.closed := by
  unfold checkDeadline
  split
  · unfold setState
    split
    · exact h
    · intro hcl
      exact State.noConfusion hcl
  · exact h

/-- Claim C3: on an admitted failing call in state Closed, the guard records
the failure (`onRequest` then `onFailure` on the counters) and then consults
the trip predicate on the updated counters; it transitions to Open with
`expiredAt = now + timeout` (counters reset) exactly when the predicate
returns true, and otherwise stays Closed with only the counters updated.
Moreover `execute` never consults the predicate on a success, nor on a
failure outside state Closed: its outcome is the same for any two
predicates `p`, `q` in those cases. -/
theorem c3_trip_predicate {α ε : Type} (p q : Counts → Bool) (cb : CircuitBreaker)
    (now : Nat) (v : α) (e : ε) :
    (cb.state = State.closed →
      (p cb.counts.onRequest.onFailure = true →
        (execute p cb now (v, some e)).cb =
          { cb with state := State.opened, expiredAt := now + cb.timeout,
                    counts := ⟨0, 0, 0, 0, 0⟩ } ∧
        (execute p cb now (v, some e)).result = ExecResult.completed v (some e)) ∧
      (p cb.counts.onRequest.onFailure = false →
        (execute p cb now (v, some e)).cb = { cb with counts := cb.counts.onRequest.onFailure } ∧
        (execute p cb now (v, some e)).result = ExecResult.completed v (some e))) ∧
    execute p cb now (v, (none : Option ε)) = execute q cb now (v, (none : Option ε)) ∧
    (cb.state ≠ State.closed →
      execute p cb now (v, some e) = execute q cb now (v, some e)) := by
  refine ⟨?_, ?_, ?_⟩
  · intro hst
    have h1 : ¬ (cb.state = State.opened ∧ cb.expiredAt < now) := by
      rintro ⟨hc, -⟩
      rw [hst] at hc
      exact State.noConfusion hc
    have h2 : ¬ cb.state = State.opened := by
      rw [hst]
      intro hc
      exact State.noConfusion hc
    have h3 : ¬ (cb.state = State.halfOpen ∧ cb.counts.requests ≥ cb.requestThreshold) := by
      rintro ⟨hc, -⟩
      rw [hst] at hc
      exact State.noConfusion hc
    constructor
    · intro hp
      unfold execute checkDeadline
      rw [if_neg h1]
      dsimp only [Option.toList]
      rw [if_neg h2, if_neg h3]
      dsimp only
      unfold CircuitBreaker.onFailure
      rw [hst]
      dsimp only
      rw [if_pos hp]
      unfold setState
      rw [if_neg (fun hc => State.noConfusion hc)]
      exact ⟨rfl, rfl⟩
    · intro hp
      unfold execute checkDeadline
      rw [if_neg h1]
      dsimp only [Option.toList]
      rw [if_neg h2, if_neg h3]
      dsimp only
      unfold CircuitBreaker.onFailure
      rw [hst]
      dsimp only
      rw [if_neg (by simp [hp])]
      exact ⟨rfl, rfl⟩
  · unfold execute
    dsimp only
  · intro hne
    have hcd := checkDeadline_ne_closed cb now hne
    unfold execute
    dsimp only
    by_cases h1 : (checkDeadline cb now).1.state = State.opened
    · rw [if_pos h1, if_pos h1]
    · rw [if_neg h1, if_neg h1]
      by_cases h2 : (checkDeadline cb now).1.state = State.halfOpen ∧
          (checkDeadline cb now).1.counts.requests ≥ (checkDeadline cb now).1.requestThreshold
      · rw [if_pos h2, if_pos h2]
      · rw [if_neg h2, if_neg h2]
        rw [onFailure_trip_indep p q _ _ now hcd]

/-- Concrete Closed guard for the C3 witness. -/
def cbC3 : CircuitBreaker := ⟨"g", 1, 60, State.closed, ⟨3, 2, 1, 0, 1⟩, 0, false⟩

/-- Concrete HalfOpen guard for the C3 witness (failure outside Closed). -/
def cbC3b : CircuitBreaker := ⟨"g", 1, 60, State.halfOpen, ⟨0, 0, 0, 0, 0⟩, 0, false⟩

/-- Witness for C3: the tripping predicate trips a concrete closed guard,
the non-tripping one leaves it closed, and predicate independence holds on
a concrete success and a concrete non-Closed failure. -/
theorem c3_witness :
    ((execute (fun _ => true) cbC3 9 ((5 : Nat), some "err")).cb =
        { cbC3 with state := State.opened, expiredAt := 9 + cbC3.timeout,
                    counts := ⟨0, 0, 0, 0, 0⟩ } ∧
      (execute (fun _ => true) cbC3 9 ((5 : Nat), some "err")).result =
        ExecResult.completed 5 (some "err")) ∧
    ((execute (fun _ => false) cbC3 9 ((5 : Nat), some "err")).cb =
        { cbC3 with counts := cbC3.counts.onRequest.onFailure } ∧
      (execute (fun _ => false) cbC3 9 ((5 : Nat), some "err")).result =
        ExecResult.completed 5 (some "err")) ∧
    execute (fun _ => true) cbC3 9 ((5 : Nat), (none : Option String)) =
      execute (fun _ => false) cbC3 9 ((5 : Nat), (none : Option String)) ∧
    execute (fun _ => true) cbC3b 9 ((5 : Nat), some "err") =
      execute (fun _ => false) cbC3b 9 ((5 : Nat), some "err") :=
  ⟨((c3_trip_predicate (fun _ => true) (fun _ => false) cbC3 9 5 "err").1 rfl).1 rfl,
   ((c3_trip_predicate (fun _ => false) (fun _ => true) cbC3 9 5 "err").1 rfl).2 rfl,
   (c3_trip_predicate (fun _ => true) (fun _ => false) cbC3 9 5 "err").2.1,
   (c3_trip_predicate (fun _ => true) (fun _ => false) cbC3b 9 5 "err").2.2 (by decide)⟩

/-! ### Reachability invariant: outside Open the deadline is cleared -/

theorem checkDeadline_expiredAt_zero (cb : CircuitBreaker) (now : Nat)
    (h : cb.state ≠ State.opened → cb.expiredAt = 0) :
    (checkDeadline cb now).1.state ≠ State.opened → (checkDeadline cb now).1.expiredAt = 0 := by
  unfold checkDeadline
  split
  · unfold setState
    split
    · intro _
      rfl
    · intro _
      rfl
  · exact h

theorem onSuccess_stay (cb : CircuitBreaker) (s : State) :
    (CircuitBreaker.onSuccess cb s).1.expiredAt = cb.expiredAt ∧
    ((CircuitBreaker.onSuccess cb s).1.state = cb.state ∨
     (CircuitBreaker.onSuccess cb s).1.state = State.closed) := by
  unfold CircuitBreaker.onSuccess
  cases s
  · exact ⟨rfl, Or.inl rfl⟩
  · exact ⟨rfl, Or.inl rfl⟩
  · dsimp only
    split
    · unfold setState
      split
      · exact ⟨rfl, Or.inl rfl⟩
      · exact ⟨rfl, Or.inr rfl⟩
    · exact ⟨rfl, Or.inl rfl⟩

theorem onFailure_cases (readyToTrip : Counts → Bool) (cb : CircuitBreaker) (s : State)
    (now : Nat) :
    (CircuitBreaker.onFailure readyToTrip cb s now).1.state = State.opened ∨
    ((CircuitBreaker.onFailure readyToTrip cb s now).1.state = cb.state ∧
     (CircuitBreaker.onFailure readyToTrip cb s now).1.expiredAt = cb.expiredAt) := by
  unfold CircuitBreaker.onFailure
  cases s
  · dsimp only
    split
    · unfold setState
      split
      · rename_i hself
        exact Or.inl hself
      · exact Or.inl rfl
    · exact Or.inr ⟨rfl, rfl⟩
  · exact Or.inr ⟨rfl, rfl⟩
  · dsimp only
    unfold setState
    split
    · rename_i hself
      exact Or.inl hself
    · exact Or.inl rfl

theorem execute_expiredAt_inv {α ε : Type} (readyToTrip : Counts → Bool)
    (cb : CircuitBreaker) (now : Nat) (act : α × Option ε)
    (h : cb.state ≠ State.opened → cb.expiredAt = 0) :
    (execute readyToTrip cb now act).cb.state ≠ State.opened →
    (execute readyToTrip cb now act).cb.expiredAt = 0 := by
  have hcd := checkDeadline_expiredAt_zero cb now h
  unfold execute
  dsimp only
  split
  · exact hcd
  · rename_i h1
    split
    · exact hcd
    · rename_i h2
      rcases act with ⟨v, e⟩
      dsimp only
      have h0 : (checkDeadline cb now).1.expiredAt = 0 := hcd h1
      cases e
      · intro _
        exact ((onSuccess_stay _ _).1).trans h0
      · intro hres
        rcases onFailure_cases readyToTrip
            { (checkDeadline cb now).1 with counts := (checkDeadline cb now).1.counts.onRequest }
            ((checkDeadline cb now).1.state) now with hop | ⟨-, he⟩
        · exact absurd hop hres
        · exact he.trans h0

theorem runExec_expiredAt_inv {α ε : Type} (readyToTrip : Counts → Bool)
    (cb : CircuitBreaker) (inputs : List (Nat × α × Option ε))
    (h : cb.state ≠ State.opened → cb.expiredAt = 0) :
    (runExec readyToTrip cb inputs).cb.state ≠ State.opened →
    (runExec readyToTrip cb inputs).cb.expiredAt = 0 := by
  induction inputs generalizing cb with
  | nil => exact h
  | cons hd tl ih =>
      rcases hd with ⟨now, act⟩
      exact ih _ (execute_expiredAt_inv readyToTrip cb now act h)

/-! ### C5: success while HalfOpen -/

theorem execute_halfopen_success {α ε : Type} (readyToTrip : Counts → Bool)
    (cb : CircuitBreaker) (now : Nat) (v : α)
    (hst : cb.state = State.halfOpen)
    (hadm : cb.counts.requests < cb.requestThreshold) :
    ((cb.counts.consecutiveSuccesses + 1) % u32Mod ≥ cb.requestThreshold →
      (execute readyToTrip cb now (v, (none : Option ε))).cb =
        { cb with state := State.closed, counts := ⟨0, 0, 0, 0, 0⟩ }) ∧
    ((cb.counts.consecutiveSuccesses + 1) % u32Mod < cb.requestThreshold →
      (execute readyToTrip cb now (v, (none : Option ε))).cb =
        { cb with counts := cb.counts.onRequest.onSuccess }) := by
  have h1 : ¬ (cb.state = State.opened ∧ cb.expiredAt < now) := by
    rintro ⟨hc, -⟩
    rw [hst] at hc
    exact State.noConfusion hc
  have h2 : ¬ cb.state = State.opened := by
    rw [hst]
    intro hc
    exact State.noConfusion hc
  have h3 : ¬ (cb.state = State.halfOpen ∧ cb.counts.requests ≥ cb.requestThreshold) := by
    rintro ⟨-, hc⟩
    omega
  constructor
  · intro hthr
    unfold execute checkDeadline
    rw [if_neg h1]
    dsimp only [Option.toList]
    rw [if_neg h2, if_neg h3]
    dsimp only
    unfold CircuitBreaker.onSuccess
    rw [hst]
    dsimp only [Counts.onRequest, Counts.onSuccess]
    rw [if_pos hthr]
    unfold setState
    rw [if_neg (fun hc => State.noConfusion hc)]
    rfl
  · intro hthr
    unfold execute checkDeadline
    rw [if_neg h1]
    dsimp only [Option.toList]
    rw [if_neg h2, if_neg h3]
    dsimp only
    unfold CircuitBreaker.onSuccess
    rw [hst]
    dsimp only [Counts.onRequest, Counts.onSuccess]
    rw [if_neg (by omega)]

/-- Claim C5: for a reachable guard (produced by any finite run of `Execute`
calls from `NewCircuitBreaker`) that is in state HalfOpen, the cooldown
deadline is already clear, and an admitted successful call records the
success (`onRequest` then `onSuccess`); if the recorded
`consecutiveSuccesses` — i.e. `(old + 1) % 2^32` — then reaches
`requestThreshold`, the guard transitions to Closed with all counters reset
to zero and the deadline still clear, and otherwise only the counters
change. -/
theorem c5_halfopen_success_recovers {α ε : Type} (cfg : Config)
    (inputs : List (Nat × α × Option ε)) (now : Nat) (v : α)
    (hst : (runExec (cfgReadyToTrip cfg) (newCircuitBreaker cfg) inputs).cb.state =
      State.halfOpen)
    (hadm : (runExec (cfgReadyToTrip cfg) (newCircuitBreaker cfg) inputs).cb.counts.requests <
      (runExec (cfgReadyToTrip cfg) (newCircuitBreaker cfg) inputs).cb.requestThreshold) :
    (runExec (cfgReadyToTrip cfg) (newCircuitBreaker cfg) inputs).cb.expiredAt = 0 ∧
    (((runExec (cfgReadyToTrip cfg) (newCircuitBreaker cfg) inputs).cb.counts.consecutiveSuccesses
          + 1) % u32Mod ≥
        (runExec (cfgReadyToTrip cfg) (newCircuitBreaker cfg) inputs).cb.requestThreshold →
      (execute (cfgReadyToTrip cfg)
          (runExec (cfgReadyToTrip cfg) (newCircuitBreaker cfg) inputs).cb now
          (v, (none : Option ε))).cb =
        { (runExec (cfgReadyToTrip cfg) (newCircuitBreaker cfg) inputs).cb with
          state := State.closed, counts := ⟨0, 0, 0, 0, 0⟩ }) ∧
    (((runExec (cfgReadyToTrip cfg) (newCircuitBreaker cfg) inputs).cb.counts.consecutiveSuccesses
          + 1) % u32Mod <
        (runExec (cfgReadyToTrip cfg) (newCircuitBreaker cfg) inputs).cb.requestThreshold →
      (execute (cfgReadyToTrip cfg)
          (runExec (cfgReadyToTrip cfg) (newCircuitBreaker cfg) inputs).cb now
          (v, (none : Option ε))).cb =
        { (runExec (cfgReadyToTrip cfg) (newCircuitBreaker cfg) inputs).cb with
          counts :=
            (runExec (cfgReadyToTrip cfg)
              (newCircuitBreaker cfg) inputs).cb.counts.onRequest.onSuccess }) := by
  refine ⟨?_, (execute_halfopen_success (cfgReadyToTrip cfg) _ now v hst hadm).1,
    (execute_halfopen_success (cfgReadyToTrip cfg) _ now v hst hadm).2⟩
  refine runExec_expiredAt_inv (cfgReadyToTrip cfg) (newCircuitBreaker cfg) inputs
    (fun _ => rfl) ?_
  rw [hst]
  exact fun hc => State.noConfusion hc

/-- Config for the C5 witness: threshold 2, timeout 1, trip on any failure. -/
def cfgC5 : Config := ⟨"w", 2, 1, some (fun _ => true), false⟩

/-- Inputs for the C5 witness: one failure (trips the guard), then one
success after the deadline (enters HalfOpen with one success recorded). -/
def inputsC5 : List (Nat × Nat × Option Unit) := [(5, 0, some ()), (10, 0, none)]

/-- Witness for C5: the concrete reachable HalfOpen guard has a clear
deadline, and its second consecutive success closes it with counters reset. -/
theorem c5_witness :
    (runExec (cfgReadyToTrip cfgC5) (newCircuitBreaker cfgC5) inputsC5).cb.expiredAt = 0 ∧
    (execute (cfgReadyToTrip cfgC5)
        (runExec (cfgReadyToTrip cfgC5) (newCircuitBreaker cfgC5) inputsC5).cb 20
        ((7 : Nat), (none : Option Unit))).cb =
      { (runExec (cfgReadyToTrip cfgC5) (newCircuitBreaker cfgC5) inputsC5).cb with
        state := State.closed, counts := ⟨0, 0, 0, 0, 0⟩ } :=
  ⟨(c5_halfopen_success_recovers cfgC5 inputsC5 20 7 (by decide) (by decide)).1,
   (c5_halfopen_success_recovers cfgC5 inputsC5 20 7 (by decide) (by decide)).2.1 (by decide)⟩

/-! ### C1: counter bookkeeping invariant -/

/-- The counter invariant: every field is a `uint32` value, the uint32 sum
of the totals equals `requests`, and at most one consecutive streak is
nonzero. -/
def CountsInv (c : Counts) : Prop :=
  c.requests < u32Mod ∧ c.totalSuccesses < u32Mod ∧ c.totalFailures < u32Mod ∧
  (c.totalSuccesses + c.totalFailures) % u32Mod = c.requests ∧
  (c.consecutiveSuccesses = 0 ∨ c.consecutiveFailures = 0)

theorem countsInv_zero : CountsInv ⟨0, 0, 0, 0, 0⟩ := by
  unfold CountsInv u32Mod
  dsimp only
  omega

theorem countsInv_onRequest_onSuccess (c : Counts) (h : CountsInv c) :
    CountsInv c.onRequest.onSuccess := by
  obtain ⟨h1, h2, h3, h4, -⟩ := h
  unfold Counts.onRequest Counts.onSuccess CountsInv
  dsimp only
  refine ⟨?_, ?_, ?_, ?_, Or.inr rfl⟩ <;> (unfold u32Mod at *; omega)

theorem countsInv_onRequest_onFailure (c : Counts) (h : CountsInv c) :
    CountsInv c.onRequest.onFailure := by
  obtain ⟨h1, h2, h3, h4, -⟩ := h
  unfold Counts.onRequest Counts.onFailure CountsInv
  dsimp only
  refine ⟨?_, ?_, ?_, ?_, Or.inl rfl⟩ <;> (unfold u32Mod at *; omega)

theorem checkDeadline_counts (cb : CircuitBreaker) (now : Nat) :
    (checkDeadline cb now).1.counts = cb.counts ∨
    (checkDeadline cb now).1.counts = ⟨0, 0, 0, 0, 0⟩ := by
  unfold checkDeadline
  split
  · unfold setState
    split
    · exact Or.inl rfl
    · exact Or.inr rfl
  · exact Or.inl rfl

theorem onSuccess_counts (cb : CircuitBreaker) (s : State) (hs : s ≠ State.opened) :
    (CircuitBreaker.onSuccess cb s).1.counts = cb.counts.onSuccess ∨
    (CircuitBreaker.onSuccess cb s).1.counts = ⟨0, 0, 0, 0, 0⟩ := by
  unfold CircuitBreaker.onSuccess
  cases s
  · exact Or.inl rfl
  · exact absurd rfl hs
  · dsimp only
    split
    · unfold setState
      split
      · exact Or.inl rfl
      · exact Or.inr rfl
    · exact Or.inl rfl

theorem onFailure_counts (readyToTrip : Counts → Bool) (cb : CircuitBreaker) (s : State)
    (now : Nat) (hs : s ≠ State.opened) :
    (CircuitBreaker.onFailure readyToTrip cb s now).1.counts = cb.counts.onFailure ∨
    (cb.state = State.opened ∧
      (CircuitBreaker.onFailure readyToTrip cb s now).1.counts = cb.counts) ∨
    (CircuitBreaker.onFailure readyToTrip cb s now).1.counts = ⟨0, 0, 0, 0, 0⟩ := by
  unfold CircuitBreaker.onFailure
  cases s
  · dsimp only
    split
    · unfold setState
      split
      · exact Or.inl rfl
      · exact Or.inr (Or.inr rfl)
    · exact Or.inl rfl
  · exact absurd rfl hs
  · dsimp only
    unfold setState
    split
    · rename_i hself
      exact Or.inr (Or.inl ⟨hself, rfl⟩)
    · exact Or.inr (Or.inr rfl)

theorem execute_countsInv {α ε : Type} (readyToTrip : Counts → Bool) (cb : CircuitBreaker)
    (now : Nat) (act : α × Option ε) (h : CountsInv cb.counts) :
    CountsInv (execute readyToTrip cb now act).cb.counts := by
  have hcd : CountsInv (checkDeadline cb now).1.counts := by
    rcases checkDeadline_counts cb now with hc | hc
    · rw [hc]
      exact h
    · rw [hc]
      exact countsInv_zero
  unfold execute
  dsimp only
  split
  · exact hcd
  · rename_i h1
    split
    · exact hcd
    · rename_i h2
      rcases act with ⟨v, e⟩
      dsimp only
      cases e
      · rcases onSuccess_counts
            { (checkDeadline cb now).1 with counts := (checkDeadline cb now).1.counts.onRequest }
            ((checkDeadline cb now).1.state) h1 with hc | hc
        · rw [hc]
          exact countsInv_onRequest_onSuccess _ hcd
        · rw [hc]
          exact countsInv_zero
      · rcases onFailure_counts readyToTrip
            { (checkDeadline cb now).1 with counts := (checkDeadline cb now).1.counts.onRequest }
            ((checkDeadline cb now).1.state) now h1 with hc | hc | hc
        · rw [hc]
          exact countsInv_onRequest_onFailure _ hcd
        · exact absurd hc.1 h1
        · rw [hc]
          exact countsInv_zero

theorem runExec_countsInv {α ε : Type} (readyToTrip : Counts → Bool) (cb : CircuitBreaker)
    (inputs : List (Nat × α × Option ε)) (h : CountsInv cb.counts) :
    CountsInv (runExec readyToTrip cb inputs).cb.counts := by
  induction inputs generalizing cb with
  | nil => exact h
  | cons hd tl ih =>
      rcases hd with ⟨now, act⟩
      exact ih _ (execute_countsInv readyToTrip cb now act h)

/-- Claim C1: for every guard freshly constructed by `NewCircuitBreaker`
and every finite sequence of `Execute` calls with arbitrary wall-clock
instants and action outcomes, the resulting counters satisfy
`totalSuccesses + totalFailures == requests` (the `==` of the source is
`uint32` arithmetic, hence the sum is taken mod `2^32`) and at most one of
`consecutiveSuccesses` / `consecutiveFailures` is nonzero. -/
theorem c1_counters_invariant {α ε : Type} (cfg : Config)
    (inputs : List (Nat × α × Option ε)) :
    (((runExec (cfgReadyToTrip cfg) (newCircuitBreaker cfg) inputs).cb.counts.totalSuccesses +
        (runExec (cfgReadyToTrip cfg) (newCircuitBreaker cfg) inputs).cb.counts.totalFailures) %
        u32Mod =
      (runExec (cfgReadyToTrip cfg) (newCircuitBreaker cfg) inputs).cb.counts.requests) ∧
    ((runExec (cfgReadyToTrip cfg) (newCircuitBreaker cfg) inputs).cb.counts.consecutiveSuccesses
        = 0 ∨
      (runExec (cfgReadyToTrip cfg)
        (newCircuitBreaker cfg) inputs).cb.counts.consecutiveFailures = 0) := by
  have h := runExec_countsInv (cfgReadyToTrip cfg) (newCircuitBreaker cfg) inputs countsInv_zero
  exact ⟨h.2.2.2.1, h.2.2.2.2⟩

/-! ### C8: RequestThreshold = 0 locks the guard out permanently -/

/-- Whether an `Execute` result is one of the two guard rejections. -/
def ExecResult.isRejection {α ε : Type} : ExecResult α ε → Bool
  | ExecResult.rejectedOpen => true
  | ExecResult.rejectedTooMany => true
  | ExecResult.completed _ _ => false

theorem checkDeadline_state (cb : CircuitBreaker) (now : Nat) :
    (checkDeadline cb now).1.state = cb.state ∨
    (checkDeadline cb now).1.state = State.halfOpen := by
  unfold checkDeadline
  split
  · unfold setState
    split
    · exact Or.inl rfl
    · exact Or.inr rfl
  · exact Or.inl rfl

theorem execute_locked_step {α ε : Type} (readyToTrip : Counts → Bool)
    (cb : CircuitBreaker) (now : Nat) (act : α × Option ε)
    (hthr : cb.requestThreshold = 0)
    (hst : cb.state = State.opened ∨ cb.state = State.halfOpen) :
    ((execute readyToTrip cb now act).result = ExecResult.rejectedOpen ∨
     (execute readyToTrip cb now act).result = ExecResult.rejectedTooMany) ∧
    (execute readyToTrip cb now act).invocations = 0 ∧
    ((execute readyToTrip cb now act).cb.state = State.opened ∨
     (execute readyToTrip cb now act).cb.state = State.halfOpen) := by
  have hs1 : (checkDeadline cb now).1.state = State.opened ∨
      (checkDeadline cb now).1.state = State.halfOpen := by
    rcases checkDeadline_state cb now with h | h
    · rw [h]
      exact hst
    · exact Or.inr h
  unfold execute
  dsimp only
  split
  · rename_i h1
    exact ⟨Or.inl rfl, rfl, Or.inl h1⟩
  · rename_i h1
    split
    · rename_i h2
      exact ⟨Or.inr rfl, rfl, Or.inr h2.1⟩
    · rename_i h2
      rcases hs1 with hs | hs
      · exact absurd hs h1
      · refine absurd ⟨hs, ?_⟩ h2
        rw [checkDeadline_requestThreshold, hthr]
        exact Nat.zero_le _

theorem runExec_locked {α ε : Type} (readyToTrip : Counts → Bool) (cb : CircuitBreaker)
    (inputs : List (Nat × α × Option ε))
    (hthr : cb.requestThreshold = 0)
    (hst : cb.state = State.opened ∨ cb.state = State.halfOpen) :
    (runExec readyToTrip cb inputs).results.all ExecResult.isRejection = true ∧
    (runExec readyToTrip cb inputs).invocations = 0 ∧
    ((runExec readyToTrip cb inputs).cb.state = State.opened ∨
     (runExec readyToTrip cb inputs).cb.state = State.halfOpen) := by
  induction inputs generalizing cb with
  | nil => exact ⟨rfl, rfl, hst⟩
  | cons hd tl ih =>
      rcases hd with ⟨now, act⟩
      obtain ⟨hr, hi, hs⟩ := execute_locked_step readyToTrip cb now act hthr hst
      obtain ⟨ha, hi2, hs2⟩ := ih (execute readyToTrip cb now act).cb
        (by rw [execute_requestThreshold]; exact hthr) hs
      refine ⟨?_, ?_, hs2⟩
      · show ((execute readyToTrip cb now act).result ::
            (runExec readyToTrip (execute readyToTrip cb now act).cb tl).results).all
            ExecResult.isRejection = true
        rw [List.all_cons, ha, Bool.and_true]
        rcases hr with h | h <;> rw [h] <;> rfl
      · show (execute readyToTrip cb now act).invocations +
            (runExec readyToTrip (execute readyToTrip cb now act).cb tl).invocations = 0
        omega

/-- Claim C8: a guard whose `requestThreshold` is 0, once in state Open,
rejects every subsequent `Execute` call (with `ErrOpenState` or
`ErrTooManyRequests`), never invokes the action again, and never returns to
state Closed — `HalfOpen` admits zero probes, so it never recovers. -/
theorem c8_zero_threshold_lockout {α ε : Type} (readyToTrip : Counts → Bool)
    (cb : CircuitBreaker) (inputs : List (Nat × α × Option ε))
    (hthr : cb.requestThreshold = 0) (hst : cb.state = State.opened) :
    (runExec readyToTrip cb inputs).results.all ExecResult.isRejection = true ∧
    (runExec readyToTrip cb inputs).invocations = 0 ∧
    (runExec readyToTrip cb inputs).cb.state ≠ State.closed := by
  obtain ⟨ha, hi, hs⟩ := runExec_locked readyToTrip cb inputs hthr (Or.inl hst)
  refine ⟨ha, hi, ?_⟩
  rcases hs with h | h <;> rw [h] <;> exact fun hc => State.noConfusion hc

/-- Concrete tripped zero-threshold guard for the C8 witness. -/
def cbC8 : CircuitBreaker := ⟨"z", 0, 60, State.opened, ⟨0, 0, 0, 0, 0⟩, 100, false⟩

/-- Witness for C8: a call before the deadline and one after it are both
rejected, the action never runs, and the guard is not Closed. -/
theorem c8_witness :
    (runExec (fun _ => true) cbC8
        [(50, (), (none : Option Unit)), (200, (), some ())]).results.all
      ExecResult.isRejection = true ∧
    (runExec (fun _ => true) cbC8
        [(50, (), (none : Option Unit)), (200, (), some ())]).invocations = 0 ∧
    (runExec (fun _ => true) cbC8
        [(50, (), (none : Option Unit)), (200, (), some ())]).cb.state ≠ State.closed :=
  c8_zero_threshold_lockout (fun _ => true) cbC8
    [(50, (), (none : Option Unit)), (200, (), some ())] rfl rfl

/-! ### C10: with a positive threshold, TooManyRequests is unreachable -/

theorem state_cases (s : State) :
    s = State.closed ∨ s = State.opened ∨ s = State.halfOpen := by
  cases s
  · exact Or.inl rfl
  · exact Or.inr (Or.inl rfl)
  · exact Or.inr (Or.inr rfl)

theorem checkDeadline_halfopen_inv (cb : CircuitBreaker) (now : Nat)
    (hthr : 1 ≤ cb.requestThreshold)
    (hinv : cb.state = State.halfOpen →
      cb.counts.requests = cb.counts.consecutiveSuccesses ∧
      cb.counts.requests < cb.requestThreshold) :
    (checkDeadline cb now).1.state = State.halfOpen →
    ((checkDeadline cb now).1.counts.requests =
        (checkDeadline cb now).1.counts.consecutiveSuccesses ∧
      (checkDeadline cb now).1.counts.requests < (checkDeadline cb now).1.requestThreshold) := by
  unfold checkDeadline
  split
  · rename_i h
    unfold setState
    split
    · rename_i hself
      intro _
      exact absurd (h.1.symm.trans hself) (fun hc => State.noConfusion hc)
    · intro _
      exact ⟨rfl, hthr⟩
  · exact hinv

theorem onSuccess_closed_result (cb1 : CircuitBreaker) (hst : cb1.state = State.closed) :
    (CircuitBreaker.onSuccess { cb1 with counts := cb1.counts.onRequest } cb1.state).1 =
      { cb1 with counts := cb1.counts.onRequest.onSuccess } := by
  rw [hst]
  rfl

theorem onSuccess_halfopen_cases (cb1 : CircuitBreaker) (hst : cb1.state = State.halfOpen) :
    (cb1.counts.onRequest.onSuccess.consecutiveSuccesses ≥ cb1.requestThreshold ∧
      (CircuitBreaker.onSuccess { cb1 with counts := cb1.counts.onRequest } cb1.state).1 =
        { cb1 with state := State.closed, counts := ⟨0, 0, 0, 0, 0⟩ }) ∨
    (cb1.counts.onRequest.onSuccess.consecutiveSuccesses < cb1.requestThreshold ∧
      (CircuitBreaker.onSuccess { cb1 with counts := cb1.counts.onRequest } cb1.state).1 =
        { cb1 with counts := cb1.counts.onRequest.onSuccess }) := by
  rw [hst]
  unfold CircuitBreaker.onSuccess
  dsimp only
  split
  · rename_i hge
    refine Or.inl ⟨hge, ?_⟩
    unfold setState
    rw [if_neg (fun hc => State.noConfusion hc)]
    rfl
  · rename_i hlt
    refine Or.inr ⟨by omega, rfl⟩

theorem onFailure_halfopen_state (readyToTrip : Counts → Bool) (cb : CircuitBreaker)
    (now : Nat) (hcb : cb.state = State.halfOpen) :
    (CircuitBreaker.onFailure readyToTrip cb State.halfOpen now).1.state = State.opened := by
  unfold CircuitBreaker.onFailure
  dsimp only
  unfold setState
  split
  · rename_i hself
    exact absurd (hcb.symm.trans hself) (fun hc => State.noConfusion hc)
  · rfl

theorem onFailure_scrutinee_halfopen (readyToTrip : Counts → Bool) (cb : CircuitBreaker)
    (s : State) (now : Nat) (hcb : cb.state = State.halfOpen) (hs : s = State.halfOpen) :
    (CircuitBreaker.onFailure readyToTrip cb s now).1.state = State.opened := by
  subst hs
  exact onFailure_halfopen_state readyToTrip cb now hcb

theorem execute_halfopen_inv {α ε : Type} (readyToTrip : Counts → Bool)
    (cb : CircuitBreaker) (now : Nat) (act : α × Option ε)
    (hthr : 1 ≤ cb.requestThreshold)
    (hinv : cb.state = State.halfOpen →
      cb.counts.requests = cb.counts.consecutiveSuccesses ∧
      cb.counts.requests < cb.requestThreshold) :
    (execute readyToTrip cb now act).result ≠ ExecResult.rejectedTooMany ∧
    ((execute readyToTrip cb now act).cb.state = State.halfOpen →
      (execute readyToTrip cb now act).cb.counts.requests =
        (execute readyToTrip cb now act).cb.counts.consecutiveSuccesses ∧
      (execute readyToTrip cb now act).cb.counts.requests <
        (execute readyToTrip cb now act).cb.requestThreshold) := by
  have hq := checkDeadline_halfopen_inv cb now hthr hinv
  unfold execute
  dsimp only
  split
  · rename_i h1
    refine ⟨fun hc => ExecResult.noConfusion hc, ?_⟩
    intro hs
    exact absurd (h1.symm.trans hs) (fun hc => State.noConfusion hc)
  · rename_i h1
    split
    · rename_i h2
      exfalso
      have h3 := (hq h2.1).2
      omega
    · rename_i h2
      rcases act with ⟨v, e⟩
      dsimp only
      cases e
      · refine ⟨fun hc => ExecResult.noConfusion hc, ?_⟩
        intro hs
        rcases state_cases ((checkDeadline cb now).1.state) with hcl | hop | hho
        · rw [onSuccess_closed_result _ hcl] at hs
          exact absurd (hcl.symm.trans hs) (fun hc => State.noConfusion hc)
        · exact absurd hop h1
        · rcases onSuccess_halfopen_cases ((checkDeadline cb now).1) hho with
            ⟨hge, heq2⟩ | ⟨hlt, heq2⟩
          · rw [heq2] at hs
            exact absurd hs (fun hc => State.noConfusion hc)
          · rw [heq2] at hs ⊢
            have heq3 := (hq hho).1
            dsimp only [Counts.onRequest, Counts.onSuccess] at hlt ⊢
            unfold u32Mod at *
            omega
      · refine ⟨fun hc => ExecResult.noConfusion hc, ?_⟩
        intro hs
        rcases state_cases ((checkDeadline cb now).1.state) with hcl | hop | hho
        · rcases onFailure_cases readyToTrip
              { (checkDeadline cb now).1 with
                counts := (checkDeadline cb now).1.counts.onRequest }
              ((checkDeadline cb now).1.state) now with hop2 | ⟨hsame, -⟩
          · exact State.noConfusion (hop2.symm.trans hs)
          · have h4 : (CircuitBreaker.onFailure readyToTrip
                { (checkDeadline cb now).1 with
                  counts := (checkDeadline cb now).1.counts.onRequest }
                ((checkDeadline cb now).1.state) now).1.state = State.closed :=
              hsame.trans hcl
            exact State.noConfusion (h4.symm.trans hs)
        · exact absurd hop h1
        · have h5 : (CircuitBreaker.onFailure readyToTrip
              { (checkDeadline cb now).1 with
                counts := (checkDeadline cb now).1.counts.onRequest }
              ((checkDeadline cb now).1.state) now).1.state = State.opened :=
            onFailure_scrutinee_halfopen readyToTrip _ _ now hho hho
          exact State.noConfusion (h5.symm.trans hs)

theorem runExec_no_toomany {α ε : Type} (readyToTrip : Counts → Bool) (cb : CircuitBreaker)
    (inputs : List (Nat × α × Option ε))
    (hthr : 1 ≤ cb.requestThreshold)
    (hinv : cb.state = State.halfOpen →
      cb.counts.requests = cb.counts.consecutiveSuccesses ∧
      cb.counts.requests < cb.requestThreshold) :
    ExecResult.rejectedTooMany ∉ (runExec readyToTrip cb inputs).results := by
  induction inputs generalizing cb with
  | nil =>
      intro hmem
      exact absurd hmem (List.not_mem_nil _)
  | cons hd tl ih =>
      rcases hd with ⟨now, act⟩
      obtain ⟨hr, hinv2⟩ := execute_halfopen_inv readyToTrip cb now act hthr hinv
      have hthr2 : 1 ≤ (execute readyToTrip cb now act).cb.requestThreshold := by
        rw [execute_requestThreshold]
        exact hthr
      have htl := ih (execute readyToTrip cb now act).cb hthr2 hinv2
      intro hmem
      have hmem2 : ExecResult.rejectedTooMany = (execute readyToTrip cb now act).result ∨
          ExecResult.rejectedTooMany ∈
            (runExec readyToTrip (execute readyToTrip cb now act).cb tl).results :=
        List.mem_cons.mp hmem
      rcases hmem2 with h | h
      · exact hr h.symm
      · exact htl h

/-- Claim C10: for every guard built by `NewCircuitBreaker` with
`RequestThreshold ≥ 1`, no finite sequence of sequential `Execute` calls ever
returns `ErrTooManyRequests`: in HalfOpen, `requests` always equals
`consecutiveSuccesses` and stays below the threshold, so the guard leaves
HalfOpen (to Closed on the threshold-th success or to Open on a failure)
before the admission cap can be hit. -/
theorem c10_no_toomany {α ε : Type} (cfg : Config) (inputs : List (Nat × α × Option ε))
    (hthr : 1 ≤ cfg.requestThreshold) :
    ExecResult.rejectedTooMany ∉
      (runExec (cfgReadyToTrip cfg) (newCircuitBreaker cfg) inputs).results := by
  refine runExec_no_toomany (cfgReadyToTrip cfg) (newCircuitBreaker cfg) inputs hthr ?_
  intro hc
  exact State.noConfusion hc

/-- Config for the C10 witness: threshold 1, timeout 1, trip on any failure. -/
def cfgC10 : Config := ⟨"w", 1, 1, some (fun _ => true), false⟩

/-- Witness for C10: a run that trips the guard, probes successfully
(recovering), and trips it again never sees `ErrTooManyRequests`. -/
theorem c10_witness :
    ExecResult.rejectedTooMany ∉
      (runExec (cfgReadyToTrip cfgC10) (newCircuitBreaker cfgC10)
        [(5, (0 : Nat), some ()), (10, 0, (none : Option Unit)), (11, 0, some ())]).results :=
  c10_no_toomany cfgC10 [(5, 0, some ()), (10, 0, none), (11, 0, some ())] (by decide)
